import Mathlib

/-!
Verification of the roomba-lib Open Interface codec against its specification.

The command-side definitions (`get_command_data_bytes`, `is_valid_roomba_command`)
are shallow embeddings of `src/roomba.c`; the opcode and radius constants come
from `src/roomba.h`.  A `uint8_t` array is embedded as a function `Nat → Nat`
whose reads are taken modulo 2^8; the C expression `command[i]<<8|command[j]`
(computed in `int`, values in `[0, 65535]`) is embedded as `word16` using
`Nat` shift and bitwise-or, and the `int` comparisons against the signed bounds
are performed on the cast to `Int`.

The streaming frame parser of the specification has no implementation under
`src/`, so it is modelled from the specification text (see the doc comments
marked accordingly).
-/

/-- Opcode constant `ROOMBA_RESET = 7` from roomba.h. -/
def ROOMBA_RESET : Nat := 7

/-- Opcode constant `ROOMBA_DRIVE = 137` from roomba.h. -/
def ROOMBA_DRIVE : Nat := 137

/-- Radius sentinel `ROOMBA_RADIUS_STRAIGHT_NEGATIVE 0x8000` from roomba.h. -/
def ROOMBA_RADIUS_STRAIGHT_NEGATIVE : Nat := 0x8000

/-- Radius sentinel `ROOMBA_RADIUS_STRAIGHT_POSITIVE 0x7FFF` from roomba.h. -/
def ROOMBA_RADIUS_STRAIGHT_POSITIVE : Nat := 0x7FFF

/-- Radius sentinel `ROOMBA_RADIUS_CLOCKWISE 0xFFFF` from roomba.h. -/
def ROOMBA_RADIUS_CLOCKWISE : Nat := 0xFFFF

/-- Radius sentinel `ROOMBA_RADIUS_COUNTER_CLOCKWISE 0x0001` from roomba.h. -/
def ROOMBA_RADIUS_COUNTER_CLOCKWISE : Nat := 0x0001

/-- Read of `uint8_t command[i]`: the array cells have type `uint8_t`, so every
stored value is reduced modulo 2^8. -/
def byteAt (command : Nat → Nat) (i : Nat) : Nat := command i % 256

/-- The C expression `hi<<8|lo`, computed in `int` on values promoted from
`uint8_t` (so no overflow and no sign extension occurs). -/
def word16 (hi lo : Nat) : Nat := Nat.lor (hi <<< 8) lo

/-- A byte array literal: index `i` reads the `i`-th list element (0 beyond the
end; all theorems only read indices the C code reads within the stated size). -/
def listByte (l : List Nat) : Nat → Nat := fun i => l.getD i 0

/-- Embedding of `get_command_data_bytes` from src/roomba.c: a switch that
returns 4 for `ROOMBA_DRIVE` and -1 in the default case. -/
def get_command_data_bytes (command : Nat) : Int :=
  if command = ROOMBA_DRIVE then 4 else -1

/-- Embedding of `is_valid_roomba_command` from src/roomba.c.  The switch on
`command[0]` handles `ROOMBA_RESET` (size must be 1) and `ROOMBA_DRIVE`
(size must be 5, the velocity word `command[1]<<8|command[2]` must satisfy the
`int` comparisons `>= -500` and `<= 500`, and the radius word
`command[3]<<8|command[4]` must be in `[-2000, 2000]` or equal one of the two
straight-drive sentinels); every other opcode falls to `default: return false`. -/
def is_valid_roomba_command (command : Nat → Nat) (size : Nat) : Bool :=
  if byteAt command 0 = ROOMBA_RESET then
    size == 1
  else if byteAt command 0 = ROOMBA_DRIVE then
    (size == 5) &&
    (decide ((-500 : Int) ≤ (word16 (byteAt command 1) (byteAt command 2) : Int)) &&
     decide ((word16 (byteAt command 1) (byteAt command 2) : Int) ≤ 500)) &&
    ((decide ((-2000 : Int) ≤ (word16 (byteAt command 3) (byteAt command 4) : Int)) &&
      decide ((word16 (byteAt command 3) (byteAt command 4) : Int) ≤ 2000)) ||
     (word16 (byteAt command 3) (byteAt command 4) == ROOMBA_RADIUS_STRAIGHT_POSITIVE) ||
     (word16 (byteAt command 3) (byteAt command 4) == ROOMBA_RADIUS_STRAIGHT_NEGATIVE))
  else
    false

/-- Reading of a 16-bit word as a big-endian two's-complement signed value, the
interpretation the specification and the protocol reference prescribe. -/
def toSigned16 (w : Nat) : Int := if w < 0x8000 then (w : Int) else (w : Int) - 0x10000

/-- Modelled from the spec (§4.2): the Drive branch of `validate` as the
specification words it, with the velocity and radius words interpreted as
big-endian signed 16-bit values.  Used only to compare the code against the
specification. -/
def drive_valid_spec (command : Nat → Nat) (size : Nat) : Bool :=
  decide (size = 5) &&
  decide ((-500 : Int) ≤ toSigned16 (word16 (byteAt command 1) (byteAt command 2))) &&
  decide (toSigned16 (word16 (byteAt command 1) (byteAt command 2)) ≤ 500) &&
  ((decide ((-2000 : Int) ≤ toSigned16 (word16 (byteAt command 3) (byteAt command 4))) &&
    decide (toSigned16 (word16 (byteAt command 3) (byteAt command 4)) ≤ 2000)) ||
   (word16 (byteAt command 3) (byteAt command 4) == ROOMBA_RADIUS_STRAIGHT_POSITIVE) ||
   (word16 (byteAt command 3) (byteAt command 4) == ROOMBA_RADIUS_STRAIGHT_NEGATIVE))

/-- Modelled from the spec: the Packet Catalog (§4.3) has no implementation
under src/; this is the byte width of each sensor packet id, taken from the
protocol reference in roomba.h ("Data Bytes" of packets 7–58).  Unknown ids
give the NotFound result. -/
def packet_width (id : Nat) : Option Nat :=
  if id ∈ [7, 8, 9, 10, 11, 12, 13, 14, 15, 16, 17, 18, 21, 24, 32, 34, 35,
      36, 37, 38, 45, 52, 53, 58] then some 1
  else if id ∈ [19, 20, 22, 23, 25, 26, 27, 28, 29, 30, 31, 33, 39, 40, 41,
      42, 43, 44, 46, 47, 48, 49, 50, 51, 54, 55, 56, 57] then some 2
  else none

/-- Modelled from the spec: payload splitting (§4.5), absent from src/.  The
accepted payload is a sequence of (packet id, raw bytes) pairs consumed left to
right, each packet's width taken from the catalog; a payload that ends
mid-packet, or that names an unknown packet id, is a protocol error and the
frame is discarded. -/
def splitPayloadFuel : Nat → List Nat → Option (List (Nat × List Nat))
  | _, [] => some []
  | 0, _ :: _ => none
  | fuel + 1, id :: rest =>
    match packet_width id with
    | none => none
    | some w =>
      if w ≤ rest.length then
        match splitPayloadFuel fuel (rest.drop w) with
        | none => none
        | some t => some ((id, rest.take w) :: t)
      else none

/-- Modelled from the spec: payload splitting entry point — each recursive step
consumes at least the packet-id byte, so the payload length is enough fuel. -/
def splitPayload (payload : List Nat) : Option (List (Nat × List Nat)) :=
  splitPayloadFuel payload.length payload

/-- Modelled from the spec: the Streaming Frame Parser state (§4.5), absent
from src/.  `readPayload n acc` stores the expected payload length and the
bytes collected so far; `readChecksum n payload` stores the completed payload
awaiting its checksum byte. -/
inductive ParseState where
  | seekHeader : ParseState
  | readLength : ParseState
  | readPayload : Nat → List Nat → ParseState
  | readChecksum : Nat → List Nat → ParseState
deriving DecidableEq

/-- Modelled from the spec: one byte of the Streaming Frame Parser (§4.5),
absent from src/.  `seekHeader` discards bytes until the header constant 19;
`readLength` consumes N (N = 0 proceeds straight to the checksum);
`readPayload` accumulates exactly N bytes; `readChecksum` accepts the frame iff
the 8-bit sum of header, length, payload and checksum bytes is 0 modulo 256,
emitting the split payload, and in either case returns to `seekHeader`. -/
def stepParser (s : ParseState) (b : Nat) : ParseState × List (Nat × List Nat) :=
  match s with
  | .seekHeader => if b = 19 then (.readLength, []) else (.seekHeader, [])
  | .readLength => if b = 0 then (.readChecksum 0 [], []) else (.readPayload b [], [])
  | .readPayload n acc =>
    if n ≤ (acc ++ [b]).length then (.readChecksum n (acc ++ [b]), [])
    else (.readPayload n (acc ++ [b]), [])
  | .readChecksum n payload =>
    if (19 + n + payload.sum + b) % 256 = 0 then
      match splitPayload payload with
      | some readings => (.seekHeader, readings)
      | none => (.seekHeader, [])
    else (.seekHeader, [])

/-- Modelled from the spec: `feed` (§6), absent from src/ — push newly arrived
bytes into the parser, returning the final parser state together with the
readings produced by the frames completed by this call. -/
def feedBytes : ParseState → List Nat → ParseState × List (Nat × List Nat)
  | s, [] => (s, [])
  | s, b :: bs =>
    ((feedBytes (stepParser s b).1 bs).1,
     (stepParser s b).2 ++ (feedBytes (stepParser s b).1 bs).2)

/-- `byteAt` always yields a byte. -/
theorem byteAt_lt (command : Nat → Nat) (i : Nat) : byteAt command i < 256 :=
  Nat.mod_lt _ (by omega)

/-- The C word `hi<<8|lo` is plain base-256 composition whenever `lo` is a
byte: the shifted high part and the low part occupy disjoint bits. -/
theorem word16_eq (hi lo : Nat) (h : lo < 256) : word16 hi lo = 256 * hi + lo := by
  unfold word16
  rw [Nat.shiftLeft_eq, Nat.mul_comm hi (2 ^ 8)]
  exact (Nat.mul_add_lt_is_or (by omega) hi).symm

/-- The velocity and radius words are bounded by 0xFFFF. -/
theorem word16_le (command : Nat → Nat) (i j : Nat) :
    word16 (byteAt command i) (byteAt command j) ≤ 65535 := by
  rw [word16_eq _ _ (byteAt_lt command j)]
  have hi := byteAt_lt command i
  have hj := byteAt_lt command j
  omega

/-- C5: for every byte array whose first byte is 7 (Reset) and every size,
`is_valid_roomba_command` returns true if and only if the size is 1. -/
theorem reset_valid_iff_size_one (command : Nat → Nat) (size : Nat)
    (h : command 0 = ROOMBA_RESET) :
    is_valid_roomba_command command size = true ↔ size = 1 := by
  simp [is_valid_roomba_command, byteAt, h, ROOMBA_RESET]

/-- Witness for C5 at the concrete input `[7]` with size 1. -/
theorem reset_valid_iff_size_one_witness :
    is_valid_roomba_command (listByte [7]) 1 = true :=
  (reset_valid_iff_size_one (listByte [7]) 1 rfl).mpr rfl

/-- C6: every byte array whose first byte is neither 7 (Reset) nor 137 (Drive)
is rejected at every size, unrecognized opcodes included. -/
theorem other_opcode_always_invalid (command : Nat → Nat) (size : Nat)
    (hb : command 0 < 256) (h7 : command 0 ≠ ROOMBA_RESET)
    (hd : command 0 ≠ ROOMBA_DRIVE) :
    is_valid_roomba_command command size = false := by
  simp [is_valid_roomba_command, byteAt, Nat.mod_eq_of_lt hb, h7, hd]

/-- Witness for C6 at the unrecognized opcode 200 with size 3. -/
theorem other_opcode_always_invalid_witness :
    is_valid_roomba_command (listByte [200]) 3 = false :=
  other_opcode_always_invalid (listByte [200]) 3 (by decide) (by decide) (by decide)

/-- C9: the verdict is a function of the size and the first five bytes only:
two arrays agreeing on indices 0 through 4 get the same verdict. -/
theorem verdict_first_five_bytes (size : Nat) (b b' : Nat → Nat)
    (h : ∀ i, i < 5 → b i = b' i) :
    is_valid_roomba_command b size = is_valid_roomba_command b' size := by
  have h0 := h 0 (by omega)
  have h1 := h 1 (by omega)
  have h2 := h 2 (by omega)
  have h3 := h 3 (by omega)
  have h4 := h 4 (by omega)
  simp only [is_valid_roomba_command, byteAt, h0, h1, h2, h3, h4]

/-- Witness for C9: two arrays that agree on the first five bytes and differ at
index 5 get the same verdict. -/
theorem verdict_first_five_bytes_witness :
    is_valid_roomba_command (listByte [137, 0, 100, 0, 1, 77]) 5 =
      is_valid_roomba_command (listByte [137, 0, 100, 0, 1, 200]) 5 :=
  verdict_first_five_bytes 5 _ _ (by decide)

/-- C10: `get_command_data_bytes` returns 4 exactly at 137 (Drive) and the
not-found value -1 at every other opcode; in particular it never returns 0. -/
theorem get_command_data_bytes_drive_or_not_found :
    ∀ c : Nat, get_command_data_bytes c = (if c = 137 then 4 else -1) ∧
      get_command_data_bytes c ≠ 0 := by
  intro c
  unfold get_command_data_bytes ROOMBA_DRIVE
  refine ⟨rfl, ?_⟩
  split <;> omega

/-- C1: the protocol reference's reverse-drive example `[137,255,56,1,244]`
(velocity -200, radius 500) satisfies the specification's signed-interpretation
Drive validity, yet `is_valid_roomba_command` rejects it, because the code
computes the velocity word without sign extension. -/
theorem drive_reverse_example_rejected :
    drive_valid_spec (listByte [137, 255, 56, 1, 244]) 5 = true ∧
    toSigned16 (word16 (byteAt (listByte [137, 255, 56, 1, 244]) 1)
      (byteAt (listByte [137, 255, 56, 1, 244]) 2)) = -200 ∧
    is_valid_roomba_command (listByte [137, 255, 56, 1, 244]) 5 = false := by
  decide

/-- C4: with velocity 100 in range, the counter-clockwise radius sentinel
0x0001 is accepted, but the clockwise sentinel 0xFFFF (signed value -1) is
rejected by the code. -/
theorem drive_radius_clockwise_rejected :
    toSigned16 ROOMBA_RADIUS_CLOCKWISE = -1 ∧
    is_valid_roomba_command (listByte [137, 0, 100, 255, 255]) 5 = false ∧
    is_valid_roomba_command
      (listByte [137, 0, 100, 0, ROOMBA_RADIUS_COUNTER_CLOCKWISE]) 5 = true := by
  decide

/-- C2 counterexample: Start (opcode 128) is documented with zero data bytes,
but `is_valid_roomba_command` rejects the one-byte sequence `[128]`. -/
theorem start_one_byte_rejected :
    is_valid_roomba_command (listByte [128]) 1 = false := by decide

/-- C2 amended: only Reset among the zero-argument opcodes is validated:
`[7]` is accepted and `[7, x]` is rejected for every extra byte, while the
other documented zero-argument opcodes (128, 131, 132, 134, 135, 136, 173) are
rejected at every size. -/
theorem zero_arg_validation_only_reset :
    is_valid_roomba_command (listByte [7]) 1 = true ∧
    (∀ x : Nat, is_valid_roomba_command (listByte [7, x]) 2 = false) ∧
    (∀ c ∈ [128, 131, 132, 134, 135, 136, 173], ∀ size : Nat,
      is_valid_roomba_command (listByte [c]) size = false) := by
  refine ⟨by decide, ?_, ?_⟩
  · intro x
    simp [is_valid_roomba_command, byteAt, listByte, ROOMBA_RESET, ROOMBA_DRIVE]
  · intro c hc size
    fin_cases hc <;>
      simp [is_valid_roomba_command, byteAt, listByte, ROOMBA_RESET, ROOMBA_DRIVE]

/-- Witness for C2's amended theorem at the zero-argument opcode Safe (131). -/
theorem zero_arg_validation_only_reset_witness :
    is_valid_roomba_command (listByte [131]) 1 = false :=
  zero_arg_validation_only_reset.2.2 131 (by decide) 1

/-- C3 counterexample: Reset (opcode 7) is documented with zero data bytes, but
`get_command_data_bytes 7` returns the not-found value -1, not 0. -/
theorem reset_data_bytes_not_found : get_command_data_bytes ROOMBA_RESET = -1 := by
  decide

/-- C3 amended: the catalog lookup covers only Drive: it returns 4 at 137 and
the not-found value -1 at every other opcode, documented or not, so -1 does not
single out opcodes outside the documented catalog. -/
theorem get_command_data_bytes_only_drive :
    get_command_data_bytes ROOMBA_DRIVE = 4 ∧
    ∀ c : Nat, c ≠ 137 → get_command_data_bytes c = -1 := by
  refine ⟨by decide, ?_⟩
  intro c hc
  simp [get_command_data_bytes, ROOMBA_DRIVE, hc]

/-- Witness for C3's amended theorem at the documented opcode Start (128). -/
theorem get_command_data_bytes_only_drive_witness :
    get_command_data_bytes 128 = -1 :=
  get_command_data_bytes_only_drive.2 128 (by decide)

/-- C8: the velocity and radius words are computed without sign extension and
always lie in [0, 65535]; consequently a Drive command whose velocity high byte
is at least 0x80 (a negative two's-complement velocity) is rejected, a Drive
command whose radius encodes a negative value in [-2000, -1] is rejected, and
the protocol reference's reverse-drive example is rejected. -/
theorem drive_negative_encodings_rejected (command : Nat → Nat) :
    word16 (byteAt command 1) (byteAt command 2) ≤ 65535 ∧
    word16 (byteAt command 3) (byteAt command 4) ≤ 65535 ∧
    (command 0 = ROOMBA_DRIVE → 128 ≤ byteAt command 1 →
      is_valid_roomba_command command 5 = false) ∧
    (command 0 = ROOMBA_DRIVE →
      (-2000 : Int) ≤ toSigned16 (word16 (byteAt command 3) (byteAt command 4)) →
      toSigned16 (word16 (byteAt command 3) (byteAt command 4)) ≤ -1 →
      is_valid_roomba_command command 5 = false) ∧
    is_valid_roomba_command (listByte [137, 255, 56, 1, 244]) 5 = false := by
  refine ⟨word16_le command 1 2, word16_le command 3 4, ?_, ?_, by decide⟩
  · intro h0 h1
    have hb0 : byteAt command 0 = 137 := by simp [byteAt, h0, ROOMBA_DRIVE]
    have hb2 := byteAt_lt command 2
    have hv : ¬ ((word16 (byteAt command 1) (byteAt command 2) : Int) ≤ 500) := by
      rw [word16_eq _ _ hb2]
      push_cast
      omega
    simp [is_valid_roomba_command, hb0, ROOMBA_RESET, ROOMBA_DRIVE, hv]
  · intro h0 hlo hhi
    have hb0 : byteAt command 0 = 137 := by simp [byteAt, h0, ROOMBA_DRIVE]
    have hb3 := byteAt_lt command 3
    have hb4 := byteAt_lt command 4
    have hrval : word16 (byteAt command 3) (byteAt command 4) =
        256 * byteAt command 3 + byteAt command 4 := word16_eq _ _ hb4
    have hrange : 63536 ≤ word16 (byteAt command 3) (byteAt command 4) ∧
        word16 (byteAt command 3) (byteAt command 4) ≤ 65535 := by
      by_cases hlt : word16 (byteAt command 3) (byteAt command 4) < 0x8000
      · simp [toSigned16, hlt] at hhi
        omega
      · simp [toSigned16, hlt] at hlo
        omega
    have h2 : ¬ ((word16 (byteAt command 3) (byteAt command 4) : Int) ≤ 2000) := by
      have := hrange.1
      omega
    have h3 : word16 (byteAt command 3) (byteAt command 4) ≠
        ROOMBA_RADIUS_STRAIGHT_POSITIVE := by
      unfold ROOMBA_RADIUS_STRAIGHT_POSITIVE
      omega
    have h4 : word16 (byteAt command 3) (byteAt command 4) ≠
        ROOMBA_RADIUS_STRAIGHT_NEGATIVE := by
      unfold ROOMBA_RADIUS_STRAIGHT_NEGATIVE
      omega
    simp [is_valid_roomba_command, hb0, ROOMBA_RESET, ROOMBA_DRIVE, h2, h3, h4]

/-- Witness for C8 at the reverse-velocity input `[137, 200, 0, 0, 100]`. -/
theorem drive_negative_encodings_rejected_witness :
    is_valid_roomba_command (listByte [137, 200, 0, 0, 100]) 5 = false :=
  (drive_negative_encodings_rejected (listByte [137, 200, 0, 0, 100])).2.2.1
    (by decide) (by decide)

/-- One unfolding of `feedBytes` on a cons cell. -/
theorem feedBytes_cons (s : ParseState) (b : Nat) (bs : List Nat) :
    feedBytes s (b :: bs) =
      ((feedBytes (stepParser s b).1 bs).1,
       (stepParser s b).2 ++ (feedBytes (stepParser s b).1 bs).2) := rfl

/-- The payload byte that completes the expected count moves the parser to
`readChecksum`. -/
theorem stepParser_payload_full (n : Nat) (acc : List Nat) (b : Nat)
    (h : n ≤ acc.length + 1) :
    stepParser (ParseState.readPayload n acc) b =
      (ParseState.readChecksum n (acc ++ [b]), []) := by
  simp [stepParser, h]

/-- A payload byte short of the expected count keeps the parser in
`readPayload`. -/
theorem stepParser_payload_more (n : Nat) (acc : List Nat) (b : Nat)
    (h : ¬ n ≤ acc.length + 1) :
    stepParser (ParseState.readPayload n acc) b =
      (ParseState.readPayload n (acc ++ [b]), []) := by
  simp [stepParser, h]

/-- Feeding the remaining payload bytes of a frame while in `readPayload`
emits nothing and leaves the parser in `readChecksum` holding the completed
payload. -/
theorem feedBytes_payload (payload : List Nat) :
    ∀ (acc : List Nat) (n : Nat) (rest : List Nat),
      acc.length + payload.length = n → payload ≠ [] →
      feedBytes (ParseState.readPayload n acc) (payload ++ rest) =
        feedBytes (ParseState.readChecksum n (acc ++ payload)) rest := by
  induction payload with
  | nil => intro acc n rest _ hne; exact absurd rfl hne
  | cons b tl ih =>
    intro acc n rest hlen _
    cases tl with
    | nil =>
      have hfull : n ≤ acc.length + 1 := by simp at hlen; omega
      rw [List.cons_append, List.nil_append, feedBytes_cons,
        stepParser_payload_full n acc b hfull]
      simp
    | cons b' tl' =>
      have hmore : ¬ n ≤ acc.length + 1 := by simp at hlen; omega
      have ih' := ih (acc ++ [b]) n rest (by simp at hlen ⊢; omega) (by simp)
      rw [List.cons_append, feedBytes_cons, stepParser_payload_more n acc b hmore]
      simpa using ih'

/-- C7: a streamed frame whose byte sum is nonzero modulo 256 is discarded
whole — the parser delivers no readings from it and returns to `seekHeader` —
and parsing of whatever bytes follow it, in particular a valid frame appended
immediately after, proceeds exactly as if the corrupted frame had never been
received. -/
theorem stream_checksum_reject (n c : Nat) (payload : List Nat)
    (hlen : payload.length = n)
    (hsum : (19 + n + payload.sum + c) % 256 ≠ 0) :
    feedBytes ParseState.seekHeader (19 :: n :: (payload ++ [c])) =
      (ParseState.seekHeader, []) ∧
    ∀ rest : List Nat,
      feedBytes ParseState.seekHeader (19 :: n :: (payload ++ c :: rest)) =
        feedBytes ParseState.seekHeader rest := by
  have main : ∀ rest : List Nat,
      feedBytes ParseState.seekHeader (19 :: n :: (payload ++ c :: rest)) =
        feedBytes ParseState.seekHeader rest := by
    intro rest
    by_cases hn : n = 0
    · subst hn
      have hp : payload = [] := List.eq_nil_of_length_eq_zero hlen
      subst hp
      have hsum' : (19 + c) % 256 ≠ 0 := by simpa using hsum
      simp [feedBytes, stepParser, hsum']
    · have hne : payload ≠ [] := by
        intro h
        rw [h] at hlen
        exact hn hlen.symm
      have start : feedBytes ParseState.seekHeader (19 :: n :: (payload ++ c :: rest)) =
          feedBytes (ParseState.readPayload n []) (payload ++ c :: rest) := by
        simp [feedBytes, stepParser, hn]
      rw [start, feedBytes_payload payload [] n (c :: rest) (by simpa using hlen) hne]
      simp [feedBytes, stepParser, hsum]
  refine ⟨?_, main⟩
  have h0 := main []
  simpa [feedBytes] using h0

/-- Witness for C7 at the protocol reference's stream example: the frame with
its checksum byte corrupted (163 → 164) yields no readings, and the intact
frame appended immediately after still yields its two readings, packet 29 with
raw bytes [2, 25] and packet 13 with raw byte [0]. -/
theorem stream_checksum_reject_witness :
    feedBytes ParseState.seekHeader
        (19 :: 5 :: ([29, 2, 25, 13, 0] ++ 164 :: [19, 5, 29, 2, 25, 13, 0, 163])) =
      (ParseState.seekHeader, [(29, [2, 25]), (13, [0])]) := by
  rw [(stream_checksum_reject 5 164 [29, 2, 25, 13, 0] (by decide) (by decide)).2
    [19, 5, 29, 2, 25, 13, 0, 163]]
  decide
